/-
Verification of the securicloud-agent tunnel core
(src/securicloud-agent/securicloud_agent.py) against its
natural-language specification.

Bytes are modelled as `Nat` values (a well-formed byte is `< 256`); byte
strings are `List Nat`.  Stateful asyncio code is modelled either as pure
functions over the byte streams involved (for the data-flow claims) or as
pure functions producing an event trace (for the temporal claims), with the
nondeterministic environment (timeouts, arriving headers, connect failures,
scheduling of the two pump tasks) passed in explicitly as data.
-/
import Mathlib

set_option autoImplicit false

namespace SCAgent

/-! ### Frame codec

The source inlines the codec:
`len(d).to_bytes(2, "big")` on the write side (lines 148, 172, 230) and
`int.from_bytes(b)` (big-endian default) after `readexactly(2)` on the read
side (lines 138, 148, 240). -/

/-- Embedding of `n.to_bytes(2, "big")`: the two big-endian bytes of `n`,
or `none` for the `OverflowError` raised when `n` does not fit in two
bytes. -/
def toBytes2BE (n : Nat) : Option (List Nat) :=
  if n < 65536 then some [n / 256, n % 256] else none

/-- Embedding of `int.from_bytes(bs)` with the big-endian default: fold the
bytes most-significant first. -/
def fromBytes2BE (bs : List Nat) : Nat :=
  bs.foldl (fun acc b => 256 * acc + b) 0

/-- Frame encoding (spec 4.1 `encode`, inlined in the source at lines
147-148 and 172-173): the 2-byte big-endian length prefix followed by the
payload; fails (OverflowError) if the payload is longer than 65535. -/
def encode (p : List Nat) : Option (List Nat) :=
  (toBytes2BE p.length).map (· ++ p)

/-- Frame decoding as performed by the readers (lines 147-148 and 240 with
136-141): read exactly 2 header bytes, interpret them big-endian, then read
exactly that many payload bytes; `none` models the `IncompleteReadError`
raised when the stream is too short. -/
def decode (bs : List Nat) : Option (List Nat) :=
  if 2 ≤ bs.length then
    let len := fromBytes2BE (bs.take 2)
    if len ≤ (bs.drop 2).length then some ((bs.drop 2).take len) else none
  else none

theorem fromBytes2BE_pair (a b : Nat) : fromBytes2BE [a, b] = 256 * a + b := by
  simp [fromBytes2BE, List.foldl]

theorem fromBytes2BE_toBytes2BE (n : Nat) (h : n < 65536) :
    (toBytes2BE n).map fromBytes2BE = some n := by
  simp [toBytes2BE, if_pos h, fromBytes2BE_pair]
  omega

/-- C3: for every byte payload `p` with `0 ≤ len(p) ≤ 65535`, encoding `p`
as a 2-byte big-endian length prefix followed by `p`, then decoding the
2-byte header and reading that many payload bytes, yields `p` again. -/
theorem c3_frame_round_trip (p : List Nat) (h : p.length ≤ 65535) :
    ∃ w, encode p = some w ∧ decode w = some p := by
  have hlt : p.length < 65536 := by omega
  refine ⟨[p.length / 256, p.length % 256] ++ p, ?_, ?_⟩
  · simp [encode, toBytes2BE, if_pos hlt]
  · have hdr : fromBytes2BE [p.length / 256, p.length % 256] = p.length := by
      rw [fromBytes2BE_pair]; omega
    simp [decode, hdr]

/-- Witness for C3 at the concrete payload `[7, 8, 9]`. -/
theorem c3_frame_round_trip_witness :
    ∃ w, encode [7, 8, 9] = some w ∧ decode w = some [7, 8, 9] :=
  c3_frame_round_trip [7, 8, 9] (by decide)

/-! ### Relay→Backend pump, data level (`pipe_tunnel_to_ha`, lines 136-163)

The pump is primed with the already-read 2-byte header `first_chunk`
(`length = int.from_bytes(first_chunk)`), then loops: if `length > 0`, read
exactly `length` bytes from the relay and write them to the backend in one
`ha_writer.write` call; then read the next 2-byte header (heartbeats written
to the relay on timeout do not touch the relay byte stream or the backend)
and repeat.  An `IncompleteReadError` on either read ends the pump with no
partial write.  The model takes the decoded first length and the remaining
relay byte stream, and returns the list of `ha_writer.write` calls; the
shutdown flag is not set during the run. -/

/-- Embedding of `pipe_tunnel_to_ha` as the sequence of backend writes it
performs on a given relay byte stream. -/
def pipe_tunnel_to_ha (length : Nat) (stream : List Nat) : List (List Nat) :=
  if 0 < length then
    if stream.length < length then []
    else
      stream.take length ::
        (if (stream.drop length).length < 2 then []
         else pipe_tunnel_to_ha (fromBytes2BE ((stream.drop length).take 2))
                ((stream.drop length).drop 2))
  else
    if stream.length < 2 then []
    else pipe_tunnel_to_ha (fromBytes2BE (stream.take 2)) (stream.drop 2)
termination_by stream.length
decreasing_by
  · simp only [List.length_drop] at *
    omega
  · simp only [List.length_drop]
    omega

/-- The relay wire bytes for a list of frame payloads: each payload is
preceded by its 2-byte big-endian length (spec 4.1, external interface
section 6). -/
def serializeFrames : List (List Nat) → List Nat
  | [] => []
  | p :: fs => [p.length / 256, p.length % 256] ++ p ++ serializeFrames fs

theorem pipe_tunnel_to_ha_serialized (frames : List (List Nat)) :
    ∀ p0 : List Nat,
      pipe_tunnel_to_ha p0.length (p0 ++ serializeFrames frames)
        = (p0 :: frames).filter (fun p => !p.isEmpty) := by
  induction frames with
  | nil =>
    intro p0
    rw [pipe_tunnel_to_ha]
    rcases p0 with _ | ⟨a, t⟩
    · simp [serializeFrames]
    · simp [serializeFrames, List.take_left, List.drop_left]
  | cons p fs ih =>
    intro p0
    have hser : serializeFrames (p :: fs)
        = [p.length / 256, p.length % 256] ++ (p ++ serializeFrames fs) := by
      simp [serializeFrames]
    have hhdr : fromBytes2BE [p.length / 256, p.length % 256] = p.length := by
      rw [fromBytes2BE_pair]; omega
    rw [pipe_tunnel_to_ha]
    rcases p0 with _ | ⟨a, t⟩
    · simp only [List.length_nil, List.nil_append, lt_irrefl, if_false, hser]
      simp [hhdr, List.take_left, List.drop_left, ih p, List.filter]
    · have hlen : ¬ ((a :: t) ++ serializeFrames (p :: fs)).length < (a :: t).length := by
        simp
      simp only [if_pos (Nat.succ_pos t.length), List.length_cons, if_neg hlen,
        List.take_left, List.drop_left, hser]
      simp [hhdr, List.take_left, List.drop_left, ih p, List.filter]

/-- C2: within a session, the Relay→Backend pump writes to the backend
exactly the relay frame payloads, one `ha_writer.write` call per
non-heartbeat frame in arrival order, the first frame's payload first and
zero-length heartbeat frames contributing no write; hence the bytes
reaching the backend are exactly the concatenation of the payloads, never
reordered or batched across frame boundaries. -/
theorem c2_relay_to_backend_order (p0 : List Nat) (frames : List (List Nat))
    (hframes : ∀ p ∈ frames, p.length ≤ 65535) :
    pipe_tunnel_to_ha p0.length (p0 ++ serializeFrames frames)
        = (p0 :: frames).filter (fun p => !p.isEmpty)
      ∧ (pipe_tunnel_to_ha p0.length (p0 ++ serializeFrames frames)).flatten
        = p0 ++ frames.flatten := by
  refine ⟨pipe_tunnel_to_ha_serialized frames p0, ?_⟩
  rw [pipe_tunnel_to_ha_serialized frames p0]
  induction frames with
  | nil => rcases p0 with _ | ⟨a, t⟩ <;> simp [List.filter]
  | cons p fs ih =>
    have h0 : ∀ q ∈ fs, q.length ≤ 65535 := fun q hq => hframes q (by simp [hq])
    rcases p with _ | ⟨b, u⟩
    · simpa [List.filter] using ih h0
    · have := ih h0
      simp only [List.filter_cons] at this ⊢
      rcases p0 with _ | ⟨a, t⟩ <;>
        simp_all [List.filter_cons, List.flatten]

/-- Witness for C2: first payload "hi" = `[104, 105]`, then a heartbeat
frame and a one-byte frame. -/
theorem c2_relay_to_backend_order_witness :
    pipe_tunnel_to_ha ([104, 105] : List Nat).length
        ([104, 105] ++ serializeFrames [[], [119]])
        = ([[104, 105], [], [119]] : List (List Nat)).filter (fun p => !p.isEmpty)
      ∧ (pipe_tunnel_to_ha ([104, 105] : List Nat).length
          ([104, 105] ++ serializeFrames [[], [119]])).flatten
        = [104, 105] ++ ([[], [119]] : List (List Nat)).flatten :=
  c2_relay_to_backend_order [104, 105] [[], [119]] (by decide)

/-! ### Backend→Relay pump (`pipe_ha_to_tunnel`, lines 166-185)

The pump loops: `d = await ha_reader.read(8192)`; an empty `d` means the
backend closed and breaks the loop; otherwise it writes
`len(d).to_bytes(2, "big")` and then `d` to the relay and drains.
`StreamReader.read(8192)` returns at most 8192 bytes but may return fewer;
the model passes in a delivery schedule `sched` whose entry `s` is the
number of bytes the backend connection has available at that read (a real
read delivers at least one byte unless the stream is at EOF, i.e. `s ≥ 1`),
so the chunk actually returned is `data.take (min s 8192)`.  An exhausted
schedule models the shutdown flag ending the loop. -/

/-- The chunks successively returned by `ha_reader.read(8192)` inside the
pump loop: each read takes `min s 8192` of the remaining backend bytes, and
the first empty read ends the loop. -/
def ha_read_chunks : List Nat → List Nat → List (List Nat)
  | [], _ => []
  | s :: sched, data =>
    let d := data.take (min s 8192)
    if d.isEmpty then []
    else d :: ha_read_chunks sched (data.drop (min s 8192))

/-- Embedding of `pipe_ha_to_tunnel` as the list of frames written to the
relay, one per loop iteration (the header write and the payload write of an
iteration, concatenated).  The `none` arm of `toBytes2BE` is the
`OverflowError` branch of `len(d).to_bytes(2, "big")`, which aborts the
pump through the broad `except`. -/
def pipe_ha_to_tunnel : List Nat → List Nat → List (List Nat)
  | [], _ => []
  | s :: sched, data =>
    let d := data.take (min s 8192)
    if d.isEmpty then []
    else
      match toBytes2BE d.length with
      | none => []
      | some hdr => (hdr ++ d) :: pipe_ha_to_tunnel sched (data.drop (min s 8192))

theorem ha_read_chunks_length_le (sched data : List Nat) :
    ∀ c ∈ ha_read_chunks sched data, c.length ≤ 8192 := by
  induction sched generalizing data with
  | nil => simp [ha_read_chunks]
  | cons s sched ih =>
    intro c hc
    simp only [ha_read_chunks] at hc
    by_cases hd : (data.take (min s 8192)).isEmpty
    · simp [hd] at hc
    · simp only [hd, if_neg, Bool.false_eq_true, not_false_eq_true,
        List.mem_cons] at hc
      rcases hc with rfl | hc
      · simp only [List.length_take]
        omega
      · exact ih _ c hc

theorem pipe_ha_to_tunnel_eq_map (sched data : List Nat) :
    pipe_ha_to_tunnel sched data
      = (ha_read_chunks sched data).map
          (fun c => [c.length / 256, c.length % 256] ++ c) := by
  induction sched generalizing data with
  | nil => simp [ha_read_chunks, pipe_ha_to_tunnel]
  | cons s sched ih =>
    simp only [ha_read_chunks, pipe_ha_to_tunnel]
    by_cases hd : (data.take (min s 8192)).isEmpty
    · simp [hd]
    · have hle : (data.take (min s 8192)).length ≤ 8192 := by
        simp only [List.length_take]; omega
      have henc : toBytes2BE (data.take (min s 8192)).length
          = some [(data.take (min s 8192)).length / 256,
                  (data.take (min s 8192)).length % 256] := by
        rw [toBytes2BE, if_pos (by omega)]
      rw [if_neg hd, if_neg hd, henc, ih]
      rfl

/-- C9: the length-prefix encoding in the Backend→Relay pump can fail only
for a chunk longer than 65535 bytes, but every chunk the pump actually
reads is at most 8192 bytes long, so `toBytes2BE` always succeeds and the
`OverflowError` branch is unreachable: the pump output is exactly one
correctly prefixed frame per chunk. -/
theorem c9_encode_never_fails (sched data : List Nat) :
    (∀ c ∈ ha_read_chunks sched data,
        c.length ≤ 8192 ∧ (toBytes2BE c.length).isSome = true)
      ∧ pipe_ha_to_tunnel sched data
          = (ha_read_chunks sched data).map
              (fun c => [c.length / 256, c.length % 256] ++ c) := by
  refine ⟨fun c hc => ⟨ha_read_chunks_length_le sched data c hc, ?_⟩,
    pipe_ha_to_tunnel_eq_map sched data⟩
  have h := ha_read_chunks_length_le sched data c hc
  simp [toBytes2BE]
  omega

/-- Witness for C9 at a concrete schedule and backend stream. -/
theorem c9_encode_never_fails_witness :
    pipe_ha_to_tunnel [8192] [1, 2, 3] = [[0, 3, 1, 2, 3]] := by
  have h := (c9_encode_never_fails [8192] [1, 2, 3]).2
  simpa using h

theorem ha_read_chunks_nil_data (sched : List Nat) :
    ha_read_chunks sched [] = [] := by
  cases sched <;> simp [ha_read_chunks]

theorem ha_read_chunks_greedy (n : Nat) :
    ∀ data : List Nat, data.length ≤ 8192 * n →
      (ha_read_chunks (List.replicate n 8192) data).flatten = data
        ∧ (ha_read_chunks (List.replicate n 8192) data).length
            = (data.length + 8191) / 8192
        ∧ ∀ c ∈ ha_read_chunks (List.replicate n 8192) data,
            c ≠ [] ∧ c.length ≤ 8192 := by
  induction n with
  | zero =>
    intro data h
    have : data = [] := by
      cases data
      · rfl
      · simp at h
    subst this
    simp [ha_read_chunks, List.replicate]
  | succ n ih =>
    intro data h
    rcases data with _ | ⟨a, t⟩
    · simp [ha_read_chunks, List.replicate]
    · have hne : ¬ (((a :: t).take (min 8192 8192)).isEmpty = true) := by
        simp [List.take]
      have hdrop : ((a :: t).drop (min 8192 8192)).length ≤ 8192 * n := by
        simp only [List.length_drop, List.length_cons]
        simp only [List.length_cons] at h
        omega
      obtain ⟨ihflat, ihlen, ihmem⟩ := ih ((a :: t).drop (min 8192 8192)) hdrop
      refine ⟨?_, ?_, ?_⟩
      · simp only [List.replicate, ha_read_chunks, if_neg hne, List.flatten_cons,
          ihflat]
        exact List.take_append_drop _ _
      · simp only [List.replicate, ha_read_chunks, if_neg hne, List.length_cons,
          ihlen]
        simp only [List.length_drop, List.length_take, List.length_cons]
        omega
      · intro c hc
        simp only [List.replicate, ha_read_chunks, if_neg hne,
          List.mem_cons] at hc
        rcases hc with rfl | hc
        · refine ⟨by simp [List.take_eq_nil_iff], ?_⟩
          simp only [List.length_take]
          omega
        · exact ihmem c hc

/-- C5: the Backend→Relay pump reads chunks of at most 8192 bytes, an empty
read ends the pump, and every non-empty chunk is emitted as exactly one
frame with a correct 2-byte big-endian length prefix, preserving byte
order; in particular a 70000-byte backend payload delivered in maximal
reads is split into 9 frames of at most 8192 bytes each whose payloads
reassemble the original. -/
theorem c5_backend_to_relay_framing (data : List Nat) (h : data.length = 70000) :
    pipe_ha_to_tunnel (List.replicate 9 8192) data
        = (ha_read_chunks (List.replicate 9 8192) data).map
            (fun c => [c.length / 256, c.length % 256] ++ c)
      ∧ (ha_read_chunks (List.replicate 9 8192) data).length = 9
      ∧ (∀ c ∈ ha_read_chunks (List.replicate 9 8192) data,
            c ≠ [] ∧ c.length ≤ 8192)
      ∧ (ha_read_chunks (List.replicate 9 8192) data).flatten = data
      ∧ (∀ s sched, pipe_ha_to_tunnel (s :: sched) ([] : List Nat) = []) := by
  have hle : data.length ≤ 8192 * 9 := by omega
  obtain ⟨hflat, hlen, hmem⟩ := ha_read_chunks_greedy 9 data hle
  refine ⟨pipe_ha_to_tunnel_eq_map _ _, ?_, hmem, hflat, ?_⟩
  · rw [hlen, h]
  · intro s sched
    simp [pipe_ha_to_tunnel]

/-- Witness for C5 at the concrete 70000-byte backend payload of zeros. -/
theorem c5_backend_to_relay_framing_witness :
    (ha_read_chunks (List.replicate 9 8192) (List.replicate 70000 0)).length = 9 :=
  (c5_backend_to_relay_framing (List.replicate 70000 0)
    (by rw [List.length_replicate])).2.1

/-! ### Trace model of the idle waiter and the session forwarder

`keep_idle_connection` (lines 216-258) and `handle_active_connection`
(lines 188-213) are modelled as pure functions from an explicit
environment to the sequence of observable actions they perform, in the
single-threaded cooperative scheduling order of the source.  The
environment lists, per connection attempt, what the network does. -/

/-- Observable actions of the tunnel core, in program order. -/
inductive Event where
  /-- `asyncio.open_connection(TUNNEL_HOST, ...)` called (line 222). -/
  | connectAttempt
  /-- identity length prefix and identity bytes written and drained
  (lines 229-232). -/
  | handshakeSent
  /-- a zero-length heartbeat frame written to the relay after a read
  timeout (lines 243-244). -/
  | heartbeat
  /-- `readexactly(2)` returned the header bytes `b` (line 240). -/
  | headerRead (b : List Nat)
  /-- `w.close()` in `keep_idle_connection` (line 247). -/
  | closeLink
  /-- `await asyncio.sleep(n)` (lines 248, 258). -/
  | sleep (n : Nat)
  /-- `log(...)` on the error paths (line 256, 204). -/
  | errorLogged
  /-- `spawn(keep_idle_connection(False))` — the replacement idle waiter
  (line 251). -/
  | spawnNewIdleWaiter
  /-- `handle_active_connection(r, w, first_chunk)` entered with header
  `b` (line 252). -/
  | sessionStart (b : List Nat)
  /-- `asyncio.open_connection(LOCAL_HA...)` called (line 193). -/
  | backendConnectAttempt
  /-- `spawn(pipe_tunnel_to_ha(...))` (line 195). -/
  | spawnPumpRelayToBackend
  /-- `spawn(pipe_ha_to_tunnel(...))` (line 196). -/
  | spawnPumpBackendToRelay
  /-- `t_writer.close()` called, by either pump cleanup or the handler
  cleanup (lines 183, 210). -/
  | closeRelayCall
  /-- `ha_writer.close()` called, by either pump cleanup or the handler
  cleanup (lines 161, 210). -/
  | closeBackendCall
  /-- `p.cancel()` on the still-pending pump (line 200). -/
  | cancelPump
  /-- the `pipe_tunnel_to_ha` task finished (its `finally` completed). -/
  | pumpRelayToBackendStopped
  /-- the `pipe_ha_to_tunnel` task finished (its `finally` completed). -/
  | pumpBackendToRelayStopped
  deriving DecidableEq

/-- What the network does at one iteration of the idle-wait inner loop
(lines 238-244). -/
inductive ConnEvent where
  /-- `asyncio.wait_for(..., 5)` times out. -/
  | timeout
  /-- `readexactly(2)` returns `b`; `stopAfter` is the value
  `stopping.is_set()` has at the check on line 246. -/
  | header (b : List Nat) (stopAfter : Bool)
  /-- the shutdown flag is observed set at the `while` check (line 238). -/
  | shutdown
  /-- `readexactly(2)` raises (connection closed / reset). -/
  | readError
  deriving DecidableEq

/-- How the inner wait loop ended. -/
inductive InnerResult where
  | gotHeader (b : List Nat) (stopAfter : Bool)
  | stopped
  | errored
  deriving DecidableEq

/-- Which exit path the session takes.  The two pumps run concurrently;
the source's coordination (lines 198-211) makes the observable order
depend only on which side terminates first. -/
inductive SessionScenario where
  /-- `asyncio.open_connection(LOCAL_HA...)` raises (line 193). -/
  | backendConnectFail
  /-- the Backend→Relay pump ends first (backend EOF or backend read
  error, lines 170-171 / 178). -/
  | backendEndsFirst
  /-- the Relay→Backend pump ends first (relay read error or backend
  write error, line 157). -/
  | relayEndsFirst
  deriving DecidableEq

/-- The inner idle-wait loop (lines 238-244): on timeout write a heartbeat
and retry; on a successful 2-byte read break with the header; exit when the
shutdown flag is observed or the read raises.  Returns the events of the
loop and how it ended; an exhausted schedule is read as the shutdown flag
being observed. -/
def idle_wait_loop : List ConnEvent → List Event × InnerResult
  | [] => ([], .stopped)
  | .timeout :: evs =>
    (Event.heartbeat :: (idle_wait_loop evs).1, (idle_wait_loop evs).2)
  | .header b stop :: _ => ([Event.headerRead b], .gotHeader b stop)
  | .shutdown :: _ => ([], .stopped)
  | .readError :: _ => ([], .errored)

/-- Trace of `handle_active_connection` (lines 188-213) per exit scenario,
in cooperative scheduling order.

* `backendConnectFail`: `open_connection` raises, the `except` logs, the
  `finally` loop closes only `t_writer` (`ha_writer` is still `None`).
* `backendEndsFirst`: `pipe_ha_to_tunnel` breaks (empty read) or raises;
  its `finally` sees `t_writer.is_closing()` false and closes `t_writer`;
  `asyncio.wait` returns, the pending `pipe_tunnel_to_ha` is cancelled,
  its `finally` closes `ha_writer`; then the handler `finally` calls
  `close()` on `t_writer` and `ha_writer` again (suppressed / no-op on an
  already-closing transport).
* `relayEndsFirst`: symmetric, `pipe_tunnel_to_ha` ends first and its
  `finally` closes `ha_writer` before `pipe_ha_to_tunnel` is cancelled. -/
def handle_active_connection : SessionScenario → List Event
  | .backendConnectFail =>
    [.backendConnectAttempt, .errorLogged, .closeRelayCall]
  | .backendEndsFirst =>
    [.backendConnectAttempt, .spawnPumpRelayToBackend, .spawnPumpBackendToRelay,
     .closeRelayCall, .pumpBackendToRelayStopped, .cancelPump,
     .closeBackendCall, .pumpRelayToBackendStopped,
     .closeRelayCall, .closeBackendCall]
  | .relayEndsFirst =>
    [.backendConnectAttempt, .spawnPumpRelayToBackend, .spawnPumpBackendToRelay,
     .closeBackendCall, .pumpRelayToBackendStopped, .cancelPump,
     .closeRelayCall, .pumpBackendToRelayStopped,
     .closeRelayCall, .closeBackendCall]

/-- One environment entry per iteration of the outer reconnect loop
(lines 217-258). -/
inductive Attempt where
  /-- `open_connection` to the relay or the handshake raises
  (`ConnectError` path, caught at line 255). -/
  | connectFail
  /-- the link comes up; `evs` drives the inner wait loop and `s` the
  session, if one is handed off. -/
  | idleWait (evs : List ConnEvent) (s : SessionScenario)

/-- What `keep_idle_connection` does after its inner wait loop ends, as a
function of the loop result; `cont` is the trace of the remaining outer
iterations.  Note two decisive details of the source: the guard on line
246 is `not first_chunk`, i.e. `first_chunk == b""`, never true for the
2-byte result of `readexactly(2)`; and when the inner loop exits without
ever assigning `first_chunk` (result `stopped`), line 246 raises
`UnboundLocalError`, which the broad `except` on line 255 turns into a
log plus a 3-unit sleep, exactly like a read error. -/
def keep_idle_after : InnerResult → SessionScenario → List Event → List Event
  | .gotHeader b stop, s, cont =>
    if b = [] ∨ stop = true then [.closeLink, .sleep 1] ++ cont
    else [.spawnNewIdleWaiter, .sessionStart b] ++ handle_active_connection s
  | .stopped, _, cont => [.errorLogged, .sleep 3] ++ cont
  | .errored, _, cont => [.errorLogged, .sleep 3] ++ cont

/-- Trace of `keep_idle_connection` (lines 216-258).  An exhausted attempt
list is read as the shutdown flag being observed at the outer `while`
check. -/
def keep_idle_connection : List Attempt → List Event
  | [] => []
  | .connectFail :: rest =>
    [.connectAttempt, .errorLogged, .sleep 3] ++ keep_idle_connection rest
  | .idleWait evs s :: rest =>
    [.connectAttempt, .handshakeSent] ++ (idle_wait_loop evs).1 ++
      keep_idle_after (idle_wait_loop evs).2 s (keep_idle_connection rest)

theorem idle_wait_loop_timeouts (n : Nat) (tail : List ConnEvent) :
    idle_wait_loop (List.replicate n .timeout ++ tail)
      = (List.replicate n Event.heartbeat ++ (idle_wait_loop tail).1,
         (idle_wait_loop tail).2) := by
  induction n with
  | zero => simp
  | succ n ih => simp [List.replicate, idle_wait_loop, ih]

theorem keep_idle_connection_connectFails (n : Nat) (rest : List Attempt) :
    keep_idle_connection (List.replicate n .connectFail ++ rest)
      = (List.replicate n
            [Event.connectAttempt, Event.errorLogged, Event.sleep 3]).flatten
        ++ keep_idle_connection rest := by
  induction n with
  | zero => simp
  | succ n ih => simp [List.replicate, keep_idle_connection, ih]

/-- Counterexample to C1: the relay delivers a single zero-length
(heartbeat) frame, `0x0000`, on an idle link with the shutdown flag clear.
`readexactly(2)` returns `b"\x00\x00"`, which is non-empty, so the
`not first_chunk` guard does not fire: the waiter spawns a replacement and
hands the heartbeat header to the Session Forwarder — a session handoff is
produced by a stream consisting solely of zero-length frames. -/
theorem c1_heartbeat_discard_counterexample :
    Event.sessionStart [0, 0] ∈
        keep_idle_connection [.idleWait [.header [0, 0] false] .backendEndsFirst]
      ∧ Event.spawnPumpRelayToBackend ∈
        keep_idle_connection [.idleWait [.header [0, 0] false] .backendEndsFirst]
      ∧ keep_idle_connection [.idleWait [.header [0, 0] false] .backendEndsFirst]
        = [.connectAttempt, .handshakeSent, .headerRead [0, 0],
           .spawnNewIdleWaiter, .sessionStart [0, 0]]
          ++ handle_active_connection .backendEndsFirst := by
  refine ⟨by decide, by decide, rfl⟩

theorem keep_idle_connection_handoff (n : Nat) (b : List Nat)
    (s : SessionScenario) (hb : b ≠ []) :
    keep_idle_connection
        [.idleWait (List.replicate n .timeout ++ [.header b false]) s]
      = [.connectAttempt, .handshakeSent] ++ List.replicate n Event.heartbeat
        ++ [.headerRead b, .spawnNewIdleWaiter, .sessionStart b]
        ++ handle_active_connection s := by
  have hne : ¬ (b = [] ∨ false = true) := by
    rintro (rfl | h)
    · exact hb rfl
    · simp at h
  simp only [keep_idle_connection, keep_idle_after, idle_wait_loop_timeouts,
    idle_wait_loop, if_neg hne]
  simp

/-- C1 as amended: on an idle link with the shutdown flag clear, each read
timeout makes the waiter send a heartbeat and retry, and the first
successfully read 2-byte header — the zero-length heartbeat header
included — ends the idle wait and is handed to the Session Forwarder as
the first chunk; zero-length headers are not discarded. -/
theorem c1_first_header_hands_off (n : Nat) (b : List Nat)
    (s : SessionScenario) (hb : b.length = 2) :
    keep_idle_connection
        [.idleWait (List.replicate n .timeout ++ [.header b false]) s]
      = [.connectAttempt, .handshakeSent] ++ List.replicate n Event.heartbeat
        ++ [.headerRead b, .spawnNewIdleWaiter, .sessionStart b]
        ++ handle_active_connection s :=
  keep_idle_connection_handoff n b s (by rintro rfl; simp at hb)

/-- Witness for C1 as amended, at the heartbeat header `0x0000` itself
after one timeout. -/
theorem c1_first_header_hands_off_witness :
    keep_idle_connection
        [.idleWait (List.replicate 1 .timeout ++ [.header [0, 0] false])
          .backendEndsFirst]
      = [.connectAttempt, .handshakeSent] ++ List.replicate 1 Event.heartbeat
        ++ [.headerRead [0, 0], .spawnNewIdleWaiter, .sessionStart [0, 0]]
        ++ handle_active_connection .backendEndsFirst :=
  c1_first_header_hands_off 1 [0, 0] .backendEndsFirst (by decide)

/-- Counterexample to C4: the shutdown flag is set while the waiter is
blocked in `wait_for(readexactly(2), 5)` and the read times out.  The
`except asyncio.TimeoutError` arm writes one more heartbeat before the
`while` condition re-checks the flag; the loop then exits with
`first_chunk` never assigned, so line 246 raises `UnboundLocalError`,
caught by the outer `except`: the waiter logs an error and sleeps the
3-unit backoff, and `w.close()` is never reached — contrary to the claim
on all three counts (a further heartbeat is sent, the link is not closed,
and a backoff sleep happens before the loop exits). -/
theorem c4_shutdown_during_read_counterexample :
    keep_idle_connection [.idleWait [.timeout, .shutdown] .backendEndsFirst]
        = [.connectAttempt, .handshakeSent, .heartbeat, .errorLogged, .sleep 3]
      ∧ Event.heartbeat ∈
          keep_idle_connection [.idleWait [.timeout, .shutdown] .backendEndsFirst]
      ∧ Event.closeLink ∉
          keep_idle_connection [.idleWait [.timeout, .shutdown] .backendEndsFirst]
      ∧ Event.sleep 3 ∈
          keep_idle_connection [.idleWait [.timeout, .shutdown] .backendEndsFirst] := by
  refine ⟨rfl, by decide, by decide, by decide⟩

/-- C4 as amended: if the shutdown flag is set while the Idle Waiter is
blocked on the timed 2-byte header read, the blocked read ends within one
timeout period, but the waiter does not exit silently: if the read ends by
timeout, one further heartbeat is written, then the unassigned
`first_chunk` raises, the error is logged, the 3-unit backoff sleep runs
once and the loop exits without closing the link; if a header arrives
before the flag is observed, the waiter closes the link, sleeps 1 unit,
and exits without a further heartbeat. -/
theorem c4_shutdown_during_read (n : Nat) (b : List Nat)
    (s : SessionScenario) (_hb : b.length = 2) :
    keep_idle_connection
          [.idleWait (List.replicate n .timeout ++ [.shutdown]) s]
        = [.connectAttempt, .handshakeSent] ++ List.replicate n Event.heartbeat
          ++ [.errorLogged, .sleep 3]
      ∧ keep_idle_connection
          [.idleWait (List.replicate n .timeout ++ [.header b true]) s]
        = [.connectAttempt, .handshakeSent] ++ List.replicate n Event.heartbeat
          ++ [.headerRead b, .closeLink, .sleep 1] := by
  constructor
  · simp only [keep_idle_connection, keep_idle_after, idle_wait_loop_timeouts,
      idle_wait_loop]
    simp
  · have ht : (b = [] ∨ true = true) := Or.inr rfl
    simp only [keep_idle_connection, keep_idle_after, idle_wait_loop_timeouts,
      idle_wait_loop, if_pos ht]
    simp

/-- Witness for C4 as amended, after one timeout, with header `0x0005`
for the arrived-header branch. -/
theorem c4_shutdown_during_read_witness :
    keep_idle_connection
          [.idleWait (List.replicate 1 .timeout ++ [.shutdown]) .backendEndsFirst]
        = [.connectAttempt, .handshakeSent] ++ List.replicate 1 Event.heartbeat
          ++ [.errorLogged, .sleep 3]
      ∧ keep_idle_connection
          [.idleWait (List.replicate 1 .timeout ++ [.header [0, 5] true])
            .backendEndsFirst]
        = [.connectAttempt, .handshakeSent] ++ List.replicate 1 Event.heartbeat
          ++ [.headerRead [0, 5], .closeLink, .sleep 1] :=
  c4_shutdown_during_read 1 [0, 5] .backendEndsFirst (by decide)

/-- Number of occurrences of the event `x` in a trace. -/
def countEvent (x : Event) : List Event → Nat
  | [] => 0
  | e :: t => (if e = x then 1 else 0) + countEvent x t

/-- Counterexample to C6: in the session where the backend side ends first
(e.g. backend EOF), `pipe_ha_to_tunnel`'s `finally` (lines 181-185) closes
the relay writer as soon as that pump exits — before the still-running
`pipe_tunnel_to_ha` has stopped — and the handler's `finally`
(lines 206-211) then calls `close()` on it a second time: the relay link
receives two close calls, the first of them while the other pump task is
still running, contradicting "closed exactly once after both pump tasks
have stopped". -/
theorem c6_close_once_counterexample :
    countEvent .closeRelayCall (handle_active_connection .backendEndsFirst) = 2
      ∧ (∃ pre post,
          handle_active_connection .backendEndsFirst
            = pre ++ Event.closeRelayCall :: post
          ∧ Event.pumpRelayToBackendStopped ∉ pre
          ∧ Event.pumpRelayToBackendStopped ∈ post) := by
  refine ⟨by decide,
    ⟨[.backendConnectAttempt, .spawnPumpRelayToBackend, .spawnPumpBackendToRelay],
     [.pumpBackendToRelayStopped, .cancelPump, .closeBackendCall,
      .pumpRelayToBackendStopped, .closeRelayCall, .closeBackendCall],
     rfl, by decide, by decide⟩⟩

/-- C6 as amended: on every modeled exit path of a session, every link
that was opened receives at least one close call (on the backend-connect
failure path the backend link was never opened), each link receives at
most two close calls — the extra one being tolerated by the
`is_closing()` guard in the pump cleanups and by `contextlib.suppress` in
the handler cleanup — and the handler's own final pair of close calls runs
only after both pump tasks have stopped; however, the first close call of
a link is issued by the finishing pump's own cleanup and may precede the
sibling pump's stop. -/
theorem c6_close_paths (s : SessionScenario) :
    1 ≤ countEvent .closeRelayCall (handle_active_connection s)
      ∧ countEvent .closeRelayCall (handle_active_connection s) ≤ 2
      ∧ countEvent .closeBackendCall (handle_active_connection s) ≤ 2
      ∧ (s ≠ .backendConnectFail →
          1 ≤ countEvent .closeBackendCall (handle_active_connection s)
          ∧ ∃ pre,
              handle_active_connection s
                = pre ++ [Event.closeRelayCall, Event.closeBackendCall]
              ∧ Event.pumpRelayToBackendStopped ∈ pre
              ∧ Event.pumpBackendToRelayStopped ∈ pre) := by
  cases s with
  | backendConnectFail =>
    exact ⟨by decide, by decide, by decide, fun h => absurd rfl h⟩
  | backendEndsFirst =>
    refine ⟨by decide, by decide, by decide, fun _ => ⟨by decide,
      ⟨[.backendConnectAttempt, .spawnPumpRelayToBackend,
        .spawnPumpBackendToRelay, .closeRelayCall, .pumpBackendToRelayStopped,
        .cancelPump, .closeBackendCall, .pumpRelayToBackendStopped],
       rfl, by decide, by decide⟩⟩⟩
  | relayEndsFirst =>
    refine ⟨by decide, by decide, by decide, fun _ => ⟨by decide,
      ⟨[.backendConnectAttempt, .spawnPumpRelayToBackend,
        .spawnPumpBackendToRelay, .closeBackendCall, .pumpRelayToBackendStopped,
        .cancelPump, .closeRelayCall, .pumpBackendToRelayStopped],
       rfl, by decide, by decide⟩⟩⟩

/-- Witness for C6 as amended at the relay-ends-first exit path. -/
theorem c6_close_paths_witness :
    1 ≤ countEvent .closeRelayCall (handle_active_connection .relayEndsFirst) :=
  (c6_close_paths .relayEndsFirst).1

/-- Events that are relevant to the replacement-spawn ordering. -/
def criticalEvent : Event → Bool
  | .spawnNewIdleWaiter => true
  | .spawnPumpRelayToBackend => true
  | .spawnPumpBackendToRelay => true
  | _ => false

/-- Scanning a trace left to right: `true` iff no pump-spawn event occurs
before the first `spawnNewIdleWaiter` (in particular vacuously when no
pump is ever spawned). -/
def spawn_precedes : List Event → Bool
  | [] => true
  | .spawnNewIdleWaiter :: _ => true
  | .spawnPumpRelayToBackend :: _ => false
  | .spawnPumpBackendToRelay :: _ => false
  | _ :: t => spawn_precedes t

theorem spawn_precedes_append (l m : List Event)
    (h : ∀ e ∈ l, criticalEvent e = false) :
    spawn_precedes (l ++ m) = spawn_precedes m := by
  induction l with
  | nil => rfl
  | cons e t ih =>
    have he : criticalEvent e = false := h e (by simp)
    have ht : ∀ x ∈ t, criticalEvent x = false := fun x hx => h x (by simp [hx])
    cases e <;> simp_all [criticalEvent, spawn_precedes]

theorem countEvent_append (x : Event) (l m : List Event) :
    countEvent x (l ++ m) = countEvent x l + countEvent x m := by
  induction l with
  | nil => simp [countEvent]
  | cons e t ih => simp [countEvent, ih]; omega

theorem countEvent_replicate (x e : Event) (n : Nat) (h : e ≠ x) :
    countEvent x (List.replicate n e) = 0 := by
  induction n with
  | zero => rfl
  | succ m ih => simp [List.replicate, countEvent, h, ih]

/-- One failed iteration of the reconnect loop: either
`open_connection`/the handshake raises (the `ConnectError` path), or the
link comes up and the idle wait then fails with a read error after `n`
timeouts (a failure while WAITING); both are caught by the same broad
`except` at line 255. -/
inductive FailKind where
  | connect
  | waiting (n : Nat) (s : SessionScenario)

/-- The attempt environment of one failed iteration. -/
def failAttempt : FailKind → Attempt
  | .connect => .connectFail
  | .waiting n s => .idleWait (List.replicate n .timeout ++ [.readError]) s

/-- The trace of one failed iteration: its events end with the logged
error and exactly one fixed 3-unit backoff sleep (lines 255-258). -/
def failTrace : FailKind → List Event
  | .connect => [.connectAttempt, .errorLogged, .sleep 3]
  | .waiting n _ =>
    [.connectAttempt, .handshakeSent] ++ List.replicate n Event.heartbeat
      ++ [.errorLogged, .sleep 3]

theorem keep_idle_connection_fail (f : FailKind) (rest : List Attempt) :
    keep_idle_connection (failAttempt f :: rest)
      = failTrace f ++ keep_idle_connection rest := by
  cases f with
  | connect => rfl
  | waiting n s =>
    simp only [failAttempt, failTrace, keep_idle_connection,
      idle_wait_loop_timeouts, idle_wait_loop, keep_idle_after]
    simp

theorem keep_idle_connection_fails (fails : List FailKind) (rest : List Attempt) :
    keep_idle_connection (fails.map failAttempt ++ rest)
      = (fails.map failTrace).flatten ++ keep_idle_connection rest := by
  induction fails with
  | nil => simp
  | cons f fs ih =>
    rw [List.map_cons, List.cons_append, keep_idle_connection_fail, ih,
      List.map_cons, List.flatten_cons, List.append_assoc]

theorem failTrace_sleep_three (fails : List FailKind) (k : Nat)
    (hk : Event.sleep k ∈ (fails.map failTrace).flatten) : k = 3 := by
  induction fails with
  | nil => simp at hk
  | cons f fs ih =>
    rw [List.map_cons, List.flatten_cons] at hk
    rcases List.mem_append.mp hk with h | h
    · cases f with
      | connect =>
        simp [failTrace] at h
        exact h
      | waiting n sc =>
        simp [failTrace, List.mem_replicate] at h
        exact h
    · exact ih h

theorem failTrace_sleep_count (fails : List FailKind) :
    countEvent (Event.sleep 3) ((fails.map failTrace).flatten)
      = fails.length := by
  induction fails with
  | nil => rfl
  | cons f fs ih =>
    rw [List.map_cons, List.flatten_cons, countEvent_append, ih]
    cases f with
    | connect =>
      have h : countEvent (Event.sleep 3) (failTrace .connect) = 1 := by decide
      rw [h, List.length_cons]
      omega
    | waiting n sc =>
      have h1 : countEvent (Event.sleep 3) (List.replicate n Event.heartbeat) = 0 :=
        countEvent_replicate _ _ n (by decide)
      have h2 : countEvent (Event.sleep 3)
          [Event.connectAttempt, Event.handshakeSent] = 0 := by decide
      have h3 : countEvent (Event.sleep 3)
          [Event.errorLogged, Event.sleep 3] = 1 := by decide
      simp only [failTrace]
      rw [countEvent_append, countEvent_append, h1, h2, h3, List.length_cons]
      omega

/-- C7: for every finite sequence of failed reconnect-loop iterations —
each a connect failure or a failure while waiting idle, in any mix and any
number — the loop logs each failure, sleeps the fixed 3-unit backoff
exactly once per failure, and connects again: every sleep on the failure
path is 3 units, there is one backoff sleep per failure (the interval
never grows), there is no retry ceiling (the statement holds for every
list of failures), retries continue until the shutdown flag ends the
attempt list, and a successful attempt after the failures hands the
session off as usual. -/
theorem c7_fixed_backoff (fails : List FailKind) (b : List Nat)
    (s : SessionScenario) (hb : b.length = 2) :
    keep_idle_connection
          (fails.map failAttempt ++ [.idleWait [.header b false] s])
        = (fails.map failTrace).flatten
          ++ [.connectAttempt, .handshakeSent, .headerRead b,
              .spawnNewIdleWaiter, .sessionStart b]
          ++ handle_active_connection s
      ∧ keep_idle_connection (fails.map failAttempt)
        = (fails.map failTrace).flatten
      ∧ (∀ k, Event.sleep k ∈ keep_idle_connection (fails.map failAttempt)
            → k = 3)
      ∧ countEvent (Event.sleep 3)
            (keep_idle_connection (fails.map failAttempt))
        = fails.length := by
  have hfails : keep_idle_connection (fails.map failAttempt)
      = (fails.map failTrace).flatten := by
    have h := keep_idle_connection_fails fails []
    rw [List.append_nil] at h
    simpa [keep_idle_connection] using h
  refine ⟨?_, hfails, ?_, ?_⟩
  · rw [keep_idle_connection_fails fails]
    have h1 := keep_idle_connection_handoff 0 b s (by rintro rfl; simp at hb)
    simp only [List.replicate, List.nil_append] at h1
    rw [h1]
    simp
  · intro k hk
    rw [hfails] at hk
    exact failTrace_sleep_three fails k hk
  · rw [hfails]
    exact failTrace_sleep_count fails

/-- Witness for C7: a connect failure, a failure while waiting idle (one
timeout, then a read error), another connect failure, then success on the
fourth attempt. -/
theorem c7_fixed_backoff_witness :
    keep_idle_connection
          (([FailKind.connect, .waiting 1 .backendEndsFirst,
             .connect]).map failAttempt
            ++ [.idleWait [.header [0, 5] false] .backendEndsFirst])
        = (([FailKind.connect, .waiting 1 .backendEndsFirst,
             .connect]).map failTrace).flatten
          ++ [.connectAttempt, .handshakeSent, .headerRead [0, 5],
              .spawnNewIdleWaiter, .sessionStart [0, 5]]
          ++ handle_active_connection .backendEndsFirst :=
  (c7_fixed_backoff [.connect, .waiting 1 .backendEndsFirst, .connect]
    [0, 5] .backendEndsFirst (by decide)).1

theorem idle_wait_loop_events (evs : List ConnEvent) :
    ∀ e ∈ (idle_wait_loop evs).1,
      e = Event.heartbeat ∨ ∃ b, e = Event.headerRead b := by
  induction evs with
  | nil => simp [idle_wait_loop]
  | cons ev t ih =>
    cases ev with
    | timeout =>
      intro e he
      rcases List.mem_cons.mp he with rfl | he
      · exact Or.inl rfl
      · exact ih e he
    | header b stop =>
      intro e he
      rcases List.mem_cons.mp he with rfl | he
      · exact Or.inr ⟨b, rfl⟩
      · simp at he
    | shutdown => simp [idle_wait_loop]
    | readError => simp [idle_wait_loop]

theorem idle_wait_loop_no_critical (evs : List ConnEvent) :
    ∀ e ∈ (idle_wait_loop evs).1, criticalEvent e = false := by
  intro e he
  rcases idle_wait_loop_events evs e he with rfl | ⟨b, rfl⟩ <;> rfl

theorem idle_wait_loop_count_zero (evs : List ConnEvent) (x : Event)
    (hx : x = Event.spawnNewIdleWaiter ∨ x = Event.backendConnectAttempt) :
    countEvent x (idle_wait_loop evs).1 = 0 := by
  induction evs with
  | nil => rfl
  | cons ev t ih =>
    cases ev with
    | timeout =>
      simp only [idle_wait_loop, countEvent, ih]
      rcases hx with rfl | rfl <;> simp
    | header b stop =>
      simp only [idle_wait_loop, countEvent]
      rcases hx with rfl | rfl <;> simp
    | shutdown => rfl
    | readError => rfl

/-- C8: whenever a session starts (the waiter hands a first frame off),
exactly one new Idle Waiter is spawned — the counts of
`spawn(keep_idle_connection(False))` calls and of sessions agree and never
exceed one per waiter instance — and the spawn happens before the Session
Forwarder's pump tasks are spawned: scanning the trace left to right, no
pump-spawn event occurs before the `spawnNewIdleWaiter` event. -/
theorem c8_replacement_spawn (attempts : List Attempt) :
    countEvent .spawnNewIdleWaiter (keep_idle_connection attempts)
        = countEvent .backendConnectAttempt (keep_idle_connection attempts)
      ∧ countEvent .spawnNewIdleWaiter (keep_idle_connection attempts) ≤ 1
      ∧ spawn_precedes (keep_idle_connection attempts) = true := by
  induction attempts with
  | nil => exact ⟨rfl, by decide, rfl⟩
  | cons a rest ih =>
    obtain ⟨ih1, ih2, ih3⟩ := ih
    cases a with
    | connectFail =>
      refine ⟨?_, ?_, ?_⟩
      · simp only [keep_idle_connection, countEvent_append, ih1]
        rfl
      · simp only [keep_idle_connection, countEvent_append]
        simpa [countEvent] using ih2
      · simp only [keep_idle_connection]
        rw [spawn_precedes_append _ _ (by decide)]
        exact ih3
    | idleWait evs s =>
      have hw := idle_wait_loop_count_zero evs .spawnNewIdleWaiter (Or.inl rfl)
      have hb := idle_wait_loop_count_zero evs .backendConnectAttempt (Or.inr rfl)
      have hhandle : ∀ sc : SessionScenario,
          countEvent .spawnNewIdleWaiter (handle_active_connection sc) = 0
            ∧ countEvent .backendConnectAttempt (handle_active_connection sc) = 1 := by
        intro sc
        cases sc <;> exact ⟨by decide, by decide⟩
      simp only [keep_idle_connection]
      cases hres : (idle_wait_loop evs).2 with
      | gotHeader b stop =>
        simp only [keep_idle_after]
        by_cases hcond : (b = [] ∨ stop = true)
        · rw [if_pos hcond]
          refine ⟨?_, ?_, ?_⟩
          · simp only [countEvent_append, hw, hb, ih1]
            rfl
          · simp only [countEvent_append, hw]
            simpa [countEvent] using ih2
          · rw [List.append_assoc, spawn_precedes_append _ _ (by decide),
              spawn_precedes_append _ _ (idle_wait_loop_no_critical evs),
              spawn_precedes_append _ _ (by decide)]
            exact ih3
        · rw [if_neg hcond]
          obtain ⟨hh1, hh2⟩ := hhandle s
          refine ⟨?_, ?_, ?_⟩
          · simp only [countEvent_append, hw, hb, hh1, hh2]
            simp [countEvent]
          · simp only [countEvent_append, hw, hh1]
            simp [countEvent]
          · rw [List.append_assoc, spawn_precedes_append _ _ (by decide),
              spawn_precedes_append _ _ (idle_wait_loop_no_critical evs)]
            rfl
      | stopped =>
        simp only [keep_idle_after]
        refine ⟨?_, ?_, ?_⟩
        · simp only [countEvent_append, hw, hb, ih1]
          rfl
        · simp only [countEvent_append, hw]
          simpa [countEvent] using ih2
        · rw [List.append_assoc, spawn_precedes_append _ _ (by decide),
            spawn_precedes_append _ _ (idle_wait_loop_no_critical evs),
            spawn_precedes_append _ _ (by decide)]
          exact ih3
      | errored =>
        simp only [keep_idle_after]
        refine ⟨?_, ?_, ?_⟩
        · simp only [countEvent_append, hw, hb, ih1]
          rfl
        · simp only [countEvent_append, hw]
          simpa [countEvent] using ih2
        · rw [List.append_assoc, spawn_precedes_append _ _ (by decide),
            spawn_precedes_append _ _ (idle_wait_loop_no_critical evs),
            spawn_precedes_append _ _ (by decide)]
          exact ih3

/-! ### Identity token (`get_ha_instance_id`, lines 113-129) and the
handshake prefix (lines 229-232)

The function reads `/share/ha_instance_id.json`; on a parse failure the
inner `except` falls through to generating a fresh id; any failure of the
outer `try` (in particular of `path.write_text`) returns the literal
`"test1"`.  The model passes the file state in as data, the 25 random
base36 draws as a function `gen`, and whether persisting succeeds as
`writeOk`.  Tokens are modelled as their UTF-8 bytes (all produced ids
are ASCII). -/

/-- State of the persisted-identity file as the function observes it. -/
inductive IdFileState where
  /-- `path.exists()` is false. -/
  | absent
  /-- the file exists but `json.loads(...)["instance_id"]` raises
  (caught by the inner `except`, which falls through to generation). -/
  | unparsable
  /-- the file exists and parses; `v` is the UTF-8 encoding of the stored
  `instance_id` string, returned verbatim. -/
  | value (v : List Nat)
  deriving DecidableEq

/-- The byte of the `j`-th character of the alphabet
`"0123456789abcdefghijklmnopqrstuvwxyz"` (line 123). -/
def base36digit (j : Fin 36) : Nat :=
  if (j : Nat) < 10 then 48 + (j : Nat) else 87 + (j : Nat)

/-- The freshly generated 25-character base36 id (line 124), with the 25
draws of `secrets.choice` passed in as `gen`. -/
def fresh_instance_id (gen : Fin 25 → Fin 36) : List Nat :=
  List.ofFn (fun i => base36digit (gen i))

/-- UTF-8 bytes of the literal fallback `"test1"` (line 129). -/
def test1_id : List Nat := [116, 101, 115, 116, 49]

/-- Embedding of `get_ha_instance_id`: a parsed persisted value is
returned verbatim; otherwise a fresh id is generated and persisted, and if
persisting (or anything else under the outer `try`) raises, the fallback
`"test1"` is returned. -/
def get_ha_instance_id (file : IdFileState) (writeOk : Bool)
    (gen : Fin 25 → Fin 36) : List Nat :=
  match file with
  | .value v => v
  | _ => if writeOk then fresh_instance_id gen else test1_id

/-- Counterexample to C10: a persisted file that parses to the empty
string — `{"instance_id": ""}` — is returned verbatim, so the identity
token is empty and the handshake's 2-byte length prefix
`len(ident).to_bytes(2, "big")` is `0x0000`, exactly the heartbeat
header. -/
theorem c10_nonempty_identity_counterexample :
    get_ha_instance_id (.value []) true (fun _ => 0) = []
      ∧ toBytes2BE (get_ha_instance_id (.value []) true (fun _ => 0)).length
        = some [0, 0] := by
  exact ⟨rfl, rfl⟩

/-- C10 as amended: provided any persisted instance-id value is non-empty,
the identity token sent in the handshake is non-empty — a fresh id has
exactly 25 characters, each a base36 digit, and the fallback is the
5-byte `"test1"` — and the handshake's 2-byte length prefix is never the
heartbeat header `0x0000`; but a persisted value is forwarded verbatim,
without any validation. -/
theorem c10_nonempty_identity (file : IdFileState) (writeOk : Bool)
    (gen : Fin 25 → Fin 36) (hfile : ∀ v, file = .value v → v ≠ []) :
    get_ha_instance_id file writeOk gen ≠ []
      ∧ toBytes2BE (get_ha_instance_id file writeOk gen).length ≠ some [0, 0]
      ∧ (fresh_instance_id gen).length = 25
      ∧ (∀ b ∈ fresh_instance_id gen,
          (48 ≤ b ∧ b ≤ 57) ∨ (97 ≤ b ∧ b ≤ 122))
      ∧ test1_id.length = 5 := by
  have hne : get_ha_instance_id file writeOk gen ≠ [] := by
    cases file with
    | value v => exact hfile v rfl
    | absent =>
      cases writeOk with
      | true =>
        simp [get_ha_instance_id, fresh_instance_id]
      | false =>
        simp [get_ha_instance_id, test1_id]
    | unparsable =>
      cases writeOk with
      | true =>
        simp [get_ha_instance_id, fresh_instance_id]
      | false =>
        simp [get_ha_instance_id, test1_id]
  refine ⟨hne, ?_, by simp [fresh_instance_id], ?_, rfl⟩
  · intro hcontra
    have hlen : (get_ha_instance_id file writeOk gen).length ≠ 0 := by
      simpa [List.length_eq_zero] using hne
    rw [toBytes2BE] at hcontra
    by_cases hlt : (get_ha_instance_id file writeOk gen).length < 65536
    · rw [if_pos hlt] at hcontra
      have := (Option.some.injEq _ _).mp hcontra
      have h1 : (get_ha_instance_id file writeOk gen).length / 256 = 0 ∧
          (get_ha_instance_id file writeOk gen).length % 256 = 0 := by
        constructor
        · exact (List.cons.injEq _ _ _ _).mp this |>.1
        · exact ((List.cons.injEq _ _ _ _).mp ((List.cons.injEq _ _ _ _).mp this).2).1
      omega
    · rw [if_neg hlt] at hcontra
      exact Option.noConfusion hcontra
  · intro b hb
    rw [fresh_instance_id] at hb
    rcases Set.mem_range.mp ((List.mem_ofFn _ _).mp hb) with ⟨i, rfl⟩
    rw [base36digit]
    rcases Nat.lt_or_ge (gen i : Nat) 10 with h | h
    · rw [if_pos h]
      omega
    · rw [if_neg (by omega)]
      have := (gen i).isLt
      omega

/-- Witness for C10 as amended with the file absent, persisting failing,
and an arbitrary concrete draw. -/
theorem c10_nonempty_identity_witness :
    get_ha_instance_id .absent false (fun _ => 0) ≠ []
      ∧ toBytes2BE (get_ha_instance_id .absent false (fun _ => 0)).length
          ≠ some [0, 0]
      ∧ (fresh_instance_id (fun _ => 0)).length = 25
      ∧ (∀ b ∈ fresh_instance_id (fun _ => 0),
          (48 ≤ b ∧ b ≤ 57) ∨ (97 ≤ b ∧ b ≤ 122))
      ∧ test1_id.length = 5 :=
  c10_nonempty_identity .absent false (fun _ => 0) (by intro v h; cases h)

end SCAgent
